import Mathlib

/-!
Verification of the OKTE price-analytics engine
(custom_components/okte: okte.py, base.py, sensors_detectors_today.py).

Shallow embedding conventions:
* A Python record dict produced by fetch_okte_data is the structure Rec;
  a key that can hold None becomes an Option field.
* Python floats are modelled as rationals; round(x, 2) is modelled as
  round-half-to-even at two decimals (the behaviour of Python round on
  exactly representable values).
* A Python function that can raise returns Except String; the string
  names the exception class.  ZeroDivisionError is the only exception
  reachable inside the embedded fragments.
* Python list.sort is a stable sort; it is embedded as insertion sort,
  which is proved stable below where a claim depends on stability.
-/

namespace Okte

/-- One price record, as built by fetch_okte_data in okte.py: keys
deliveryStart, deliveryEnd, deliveryDayCET, HourStartCET, HourEndCET,
period, price, each possibly None. -/
structure Rec where
  deliveryStart : Option String
  deliveryEnd : Option String
  deliveryDayCET : Option String
  hourStartCET : Option String
  hourEndCET : Option String
  period : Option Int
  price : Option ℚ
deriving DecidableEq, Repr

instance : Inhabited Rec := ⟨⟨none, none, none, none, none, none, none⟩⟩

/-- Round-half-to-even to an integer (the rounding used by Python round). -/
def roundHalfEven (q : ℚ) : ℤ :=
  let f := ⌊q⌋
  let r := q - f
  if r < 1/2 then f
  else if 1/2 < r then f + 1
  else if f % 2 = 0 then f else f + 1

/-- Python round(x, 2). -/
def round2 (q : ℚ) : ℚ := (roundHalfEven (q * 100) : ℚ) / 100

/-- Python min over a list of numbers (fold over the tail; the empty case
is unreachable wherever the source calls min). -/
def pyMin : List ℚ → ℚ
  | [] => 0
  | a :: l => l.foldl min a

/-- Python max over a list of numbers. -/
def pyMax : List ℚ → ℚ
  | [] => 0
  | a :: l => l.foldl max a

/-- The price of a record whose price is known to be present. -/
def recPrice (r : Rec) : ℚ := r.price.getD 0

/-- The filter used by calculate_price_statistics: price is not None. -/
def hasPrice (r : Rec) : Bool := r.price.isSome

/-- The statistics dict returned by calculate_price_statistics. -/
structure Stats where
  min_price : Option ℚ
  max_price : Option ℚ
  avg_price : Option ℚ
  count : Nat
  min_record : Option Rec
  max_record : Option Rec
deriving DecidableEq, Repr

/-- The all-None statistics dict returned on empty input. -/
def emptyStats : Stats := ⟨none, none, none, 0, none, none⟩

/-- Embedding of calculate_price_statistics (okte.py lines 148-198). -/
def calculate_price_statistics (data : List Rec) : Stats :=
  if data = [] then emptyStats
  else
    let valid_prices := data.filter hasPrice
    if valid_prices = [] then emptyStats
    else
      let prices := valid_prices.map recPrice
      let min_price := pyMin prices
      let max_price := pyMax prices
      let avg_price := prices.sum / prices.length
      { min_price := some min_price
        max_price := some max_price
        avg_price := some (round2 avg_price)
        count := valid_prices.length
        min_record := valid_prices.find? (fun r => r.price = some min_price)
        max_record := valid_prices.find? (fun r => r.price = some max_price) }

/-- Modelled from the spec (section 4.1): reference statistics following the
words of the specification.  Filter out records with absent price; if the
filtered set is empty return count 0 and all fields None; otherwise the
numeric minimum and maximum of the prices, the arithmetic mean rounded to
two decimals, the count, and the first record achieving the minimum and the
first achieving the maximum, in input iteration order. -/
def statsReference (data : List Rec) : Stats :=
  let valid := data.filter hasPrice
  match (valid.map recPrice).min?, (valid.map recPrice).max? with
  | some mn, some mx =>
    { min_price := some mn
      max_price := some mx
      avg_price := some (round2 ((valid.map recPrice).sum / (valid.map recPrice).length))
      count := valid.length
      min_record := valid.find? (fun r => r.price = some mn)
      max_record := valid.find? (fun r => r.price = some mx) }
  | _, _ => emptyStats

/-! Window search (okte.py lines 201-446). -/

/-- The validity filter shared by find_cheapest_time_window,
find_most_expensive_time_window, find_multiple_expensive_windows and
find_multiple_cheap_windows (okte.py lines 219, 298, 374, 419): the record
takes part in windowing iff price, deliveryStart, deliveryEnd,
deliveryDayCET, HourStartCET and HourEndCET are all not None. -/
def recordIsValid (r : Rec) : Bool :=
  r.price.isSome && r.deliveryStart.isSome && r.deliveryEnd.isSome &&
    r.deliveryDayCET.isSome && r.hourStartCET.isSome && r.hourEndCET.isSome

/-- The sort key: valid_data.sort(key=lambda x: x[deliveryStart]). -/
def startKey (r : Rec) : String := r.deliveryStart.getD ""

/-- Lexicographic less-or-equal on code-point sequences: the order Python
uses to compare the ISO timestamp strings of the sort key. -/
def charListLe : List Char → List Char → Bool
  | [], _ => true
  | _ :: _, [] => false
  | a :: as, b :: bs =>
    if a.val < b.val then true
    else if b.val < a.val then false
    else charListLe as bs

/-- Python string comparison of the two sort keys. -/
def startLe (a b : Rec) : Bool := charListLe (startKey a).data (startKey b).data

/-- Stable ascending sort by deliveryStart (Python list.sort is stable). -/
def sortByStart (l : List Rec) : List Rec :=
  List.insertionSort (fun a b => startLe a b = true) l

/-- Normalize one bound of a Python slice l[a:b] for a list of length n. -/
def pySliceBound (n : Nat) (i : Int) : Nat :=
  if i < 0 then (n + i).toNat else min i.toNat n

/-- Python slice l[a:b] (allows negative bounds, clamps to the list). -/
def pySlice {α : Type} (l : List α) (a b : Int) : List α :=
  (l.take (pySliceBound l.length b)).drop (pySliceBound l.length a)

/-- The best_window dict built inside the sliding loop. -/
structure BestWindow where
  start_time : Option String
  end_time : Option String
  avg_price : ℚ
  min_price : ℚ
  max_price : ℚ
  records : List Rec
  total_cost_per_mwh : ℚ
deriving DecidableEq, Repr

/-- Build the best_window dict from window_data and its exact average
(okte.py lines 250-258 and 329-337).  The avg_price and
total_cost_per_mwh entries hold values rounded to two decimals; the
comparison driving the loop uses the exact average. -/
def mkBestWindow (window_data : List Rec) (avg : ℚ) : BestWindow :=
  let window_prices := window_data.map recPrice
  { start_time := window_data.headI.deliveryStart
    end_time := (window_data.getLastD default).deliveryEnd
    avg_price := round2 avg
    min_price := pyMin window_prices
    max_price := pyMax window_prices
    records := window_data
    total_cost_per_mwh := round2 window_prices.sum }

/-- Result of find_cheapest_time_window / find_most_expensive_time_window:
either found: False with a message, or found: True with the window fields.
The always-None savings_vs_daily_avg / extra_cost_vs_daily_avg entries are
omitted. -/
inductive FindResult where
  | notFound (message : String)
  | found (window_hours : Int) (w : BestWindow)
deriving DecidableEq, Repr

/-- The expression avg_price = sum(window_prices) / len(window_prices)
evaluated on the window slice valid_data[i : i + W]. -/
def sliceAvg (valid : List Rec) (W : Int) (i : Nat) : ℚ :=
  ((pySlice valid i (i + W)).map recPrice).sum /
    (((pySlice valid i (i + W)).map recPrice).length : ℚ)

/-- One iteration of the sliding-window loop (okte.py lines 240-258 and
319-337): slice the window, average its prices (a division that raises
ZeroDivisionError on an empty slice), and keep the window when better
beats the best average so far (None models the float inf / -inf start). -/
def windowStep (better : ℚ → ℚ → Bool) (valid : List Rec) (W : Int) (i : Nat)
    (best : Option (ℚ × BestWindow)) : Except String (Option (ℚ × BestWindow)) :=
  if ((pySlice valid i (i + W)).map recPrice).length = 0 then .error "ZeroDivisionError"
  else
    match best with
    | none =>
      .ok (some (sliceAvg valid W i, mkBestWindow (pySlice valid i (i + W)) (sliceAvg valid W i)))
    | some (b, w) =>
      if better (sliceAvg valid W i) b then
        .ok (some (sliceAvg valid W i, mkBestWindow (pySlice valid i (i + W)) (sliceAvg valid W i)))
      else .ok (some (b, w))

/-- The sliding-window loop over the list of starting offsets. -/
def windowLoop (better : ℚ → ℚ → Bool) (valid : List Rec) (W : Int) :
    List Nat → Option (ℚ × BestWindow) → Except String (Option (ℚ × BestWindow))
  | [], best => .ok best
  | i :: rest, best =>
    match windowStep better valid W i best with
    | .error e => .error e
    | .ok best' => windowLoop better valid W rest best'

/-- Embedding of find_cheapest_time_window (okte.py lines 201-277). -/
def find_cheapest_time_window (data : List Rec) (window_hours : Int) :
    Except String FindResult :=
  if data = [] ∨ (data.length : Int) < window_hours then
    .ok (.notFound ("Not enough data for " ++ toString window_hours ++ "-hour window"))
  else if ((data.filter recordIsValid).length : Int) < window_hours then
    .ok (.notFound ("Not enough valid data for " ++ toString window_hours ++ "-hour window"))
  else
    match windowLoop (fun a b => decide (a < b)) (sortByStart (data.filter recordIsValid))
        window_hours
        (List.range ((((sortByStart (data.filter recordIsValid)).length : Int) -
          window_hours + 1).toNat)) none with
    | .error e => .error e
    | .ok none => .ok (.notFound "Could not find suitable time window")
    | .ok (some (_, w)) => .ok (.found window_hours w)

/-- Embedding of find_most_expensive_time_window (okte.py lines 280-356);
identical to find_cheapest_time_window except that the loop keeps the
window whose average is strictly greater than the best so far. -/
def find_most_expensive_time_window (data : List Rec) (window_hours : Int) :
    Except String FindResult :=
  if data = [] ∨ (data.length : Int) < window_hours then
    .ok (.notFound ("Not enough data for " ++ toString window_hours ++ "-hour window"))
  else if ((data.filter recordIsValid).length : Int) < window_hours then
    .ok (.notFound ("Not enough valid data for " ++ toString window_hours ++ "-hour window"))
  else
    match windowLoop (fun a b => decide (b < a)) (sortByStart (data.filter recordIsValid))
        window_hours
        (List.range ((((sortByStart (data.filter recordIsValid)).length : Int) -
          window_hours + 1).toNat)) none with
    | .error e => .error e
    | .ok none => .ok (.notFound "Could not find suitable time window")
    | .ok (some (_, w)) => .ok (.found window_hours w)

/-- The window dict built by the top-K rankers (okte.py lines 392-397 and
437-442): start, end, the average rounded to two decimals, and the records. -/
structure MultiWindow where
  start_time : Option String
  end_time : Option String
  avg_price : ℚ
  records : List Rec
deriving DecidableEq, Repr

/-- Build one candidate window dict of the top-K rankers. -/
def mkMultiWindow (window_data : List Rec) (avg : ℚ) : MultiWindow :=
  { start_time := window_data.headI.deliveryStart
    end_time := (window_data.getLastD default).deliveryEnd
    avg_price := round2 avg
    records := window_data }

/-- The candidate-enumeration loop of the top-K rankers (okte.py lines
387-397 and 432-442): append the window dict for every starting offset. -/
def multiLoop (valid : List Rec) (W : Int) :
    List Nat → List MultiWindow → Except String (List MultiWindow)
  | [], acc => .ok acc
  | i :: rest, acc =>
    if ((pySlice valid i (i + W)).map recPrice).length = 0 then .error "ZeroDivisionError"
    else
      multiLoop valid W rest
        (acc ++ [mkMultiWindow (pySlice valid i (i + W)) (sliceAvg valid W i)])

/-- Embedding of find_multiple_cheap_windows (okte.py lines 404-446):
enumerate all candidate windows, sort them stably by the (rounded)
avg_price entry ascending, return the slice windows[:count]. -/
def find_multiple_cheap_windows (data : List Rec) (window_hours count : Int) :
    Except String (List MultiWindow) :=
  if data = [] ∨ (data.length : Int) < window_hours then .ok []
  else if ((data.filter recordIsValid).length : Int) < window_hours then .ok []
  else
    match multiLoop (sortByStart (data.filter recordIsValid)) window_hours
        (List.range ((((sortByStart (data.filter recordIsValid)).length : Int) -
          window_hours + 1).toNat)) [] with
    | .error e => .error e
    | .ok windows =>
      .ok (pySlice (List.insertionSort (fun a b => a.avg_price ≤ b.avg_price) windows) 0 count)

/-- Embedding of find_multiple_expensive_windows (okte.py lines 359-401):
as find_multiple_cheap_windows but sorted descending (reverse=True), which
for a stable sort is a stable sort by the reversed comparison. -/
def find_multiple_expensive_windows (data : List Rec) (window_hours count : Int) :
    Except String (List MultiWindow) :=
  if data = [] ∨ (data.length : Int) < window_hours then .ok []
  else if ((data.filter recordIsValid).length : Int) < window_hours then .ok []
  else
    match multiLoop (sortByStart (data.filter recordIsValid)) window_hours
        (List.range ((((sortByStart (data.filter recordIsValid)).length : Int) -
          window_hours + 1).toNat)) [] with
    | .error e => .error e
    | .ok windows =>
      .ok (pySlice (List.insertionSort (fun a b => b.avg_price ≤ a.avg_price) windows) 0 count)

/-! Day partitioner (base.py lines 152-178) and window-membership detector
(sensors_detectors_today.py lines 127-181 and 313-367). -/

/-- Embedding of OkteBaseSensor._filter_data_by_date (base.py lines 152-178).
The composition fromisoformat / astimezone(tz) / date() is abstracted into
the parameter parseLocalDate: it returns the local calendar date of an ISO
timestamp string, or none when parsing raises (the record is then skipped
by the bare except).  The truthiness test if record.get(deliveryStart)
skips records whose deliveryStart is None or the empty string. -/
def filter_data_by_date {Date : Type} [DecidableEq Date]
    (parseLocalDate : String → Option Date) (data : List Rec) (target_date : Date) :
    List Rec :=
  data.filter (fun r =>
    match r.deliveryStart with
    | none => false
    | some s =>
      if s = "" then false
      else
        match parseLocalDate s with
        | none => false
        | some d => decide (d = target_date))

/-- Whether a record passes the deliveryStart truthiness-and-parse gate of
_filter_data_by_date for a given parse function. -/
def startParses {Date : Type} (parseLocalDate : String → Option Date) (r : Rec) : Prop :=
  ∃ s, r.deliveryStart = some s ∧ s ≠ "" ∧ (parseLocalDate s).isSome

/-- The fields of the cached window result read by the detector:
found, start_time, end_time (each possibly missing / None). -/
structure WindowTimes where
  found : Bool
  start_time : Option String
  end_time : Option String
deriving DecidableEq, Repr

/-- Embedding of _update_detector_state (sensors_detectors_today.py lines
127-181 for the cheapest and 313-367 for the most expensive detector; the
two bodies are identical).  Timestamps are modelled as integers (UTC
minutes); the parameter parse models datetime.fromisoformat on the
Z-normalized string (none = the parse raised, caught by the inner except,
state False); toLocal models astimezone(tz).replace(tzinfo=None).  The
whole body sits in a try/except that forces state False on any exception;
the embedding is a total function, so no exception escapes.  The dict
truthiness tests make found: False, a missing or empty bound, all yield
state False; otherwise the state is start_local <= now < end_local. -/
def update_detector_state (parse : String → Option Int) (toLocal : Int → Int)
    (window : Option WindowTimes) (now : Int) : Bool :=
  match window with
  | none => false
  | some w =>
    if !w.found then false
    else
      match w.start_time, w.end_time with
      | some s, some e =>
        if s = "" || e = "" then false
        else
          match parse s, parse e with
          | some sd, some ed => decide (toLocal sd ≤ now ∧ now < toLocal ed)
          | _, _ => false
      | _, _ => false

/-! Derived notions used to state the claims, and concrete fixtures. -/

instance {ε α : Type} [DecidableEq ε] [DecidableEq α] : DecidableEq (Except ε α) :=
  fun a b =>
    match a, b with
    | .error e1, .error e2 =>
      if h : e1 = e2 then isTrue (by rw [h]) else isFalse (fun hc => h (Except.error.inj hc))
    | .ok x, .ok y =>
      if h : x = y then isTrue (by rw [h]) else isFalse (fun hc => h (Except.ok.inj hc))
    | .error _, .ok _ => isFalse (fun hc => Except.noConfusion hc)
    | .ok _, .error _ => isFalse (fun hc => Except.noConfusion hc)

/-- The valid records of a series, sorted by deliveryStart: the list that
the sliding loops of the four window functions traverse. -/
def sortedValid (data : List Rec) : List Rec := sortByStart (data.filter recordIsValid)

/-- The window of W consecutive entries at starting offset i of a sorted
list (valid_data[i : i + W] for an in-range offset). -/
def windowSlice (sorted : List Rec) (W i : Nat) : List Rec := (sorted.drop i).take W

/-- The exact (unrounded) average price of the window at offset i. -/
def winAvg (sorted : List Rec) (W i : Nat) : ℚ :=
  ((windowSlice sorted W i).map recPrice).sum / (W : ℚ)

/-- The candidate window dict the top-K rankers build at offset i. -/
def candWin (sorted : List Rec) (W i : Nat) : MultiWindow :=
  mkMultiWindow (windowSlice sorted W i) (winAvg sorted W i)

/-- The best_window dict the single-best search builds at offset i. -/
def bestAt (sorted : List Rec) (W i : Nat) : BestWindow :=
  mkBestWindow (windowSlice sorted W i) (winAvg sorted W i)

/-- The pure selection fold mirrored by the single-best sliding loop when no
slice is empty: scan the offsets in order, replacing the tracked best
exactly when the average at the new offset strictly improves on it. -/
def selectBest (lt : ℚ → ℚ → Prop) [DecidableRel lt] (f : Nat → ℚ) (g : Nat → BestWindow) :
    List Nat → Option (ℚ × BestWindow) → Option (ℚ × BestWindow)
  | [], best => best
  | i :: rest, best =>
    selectBest lt f g rest
      (match best with
       | none => some (f i, g i)
       | some (b, w) => if lt (f i) b then some (f i, g i) else some (b, w))

/-- Fixture: a record with all six filtered entries present. -/
def mkValidRec (s e : String) (p : ℚ) : Rec :=
  { deliveryStart := some s, deliveryEnd := some e, deliveryDayCET := some "d",
    hourStartCET := some "hs", hourEndCET := some "he", period := some 1, price := some p }

/-- Fixture: the five-hour scenario of the specification, prices
10, 5, 2, 2, 20 on consecutive hours. -/
def scenarioData : List Rec :=
  [mkValidRec "00" "01" 10, mkValidRec "01" "02" 5, mkValidRec "02" "03" 2,
   mkValidRec "03" "04" 2, mkValidRec "04" "05" 20]

/-- Fixture: prices 1.004, 1.004, 1.0; the two length-2 windows have
distinct exact averages 1.004 and 1.002 but the same rounded average 1.0. -/
def roundTieData : List Rec :=
  [mkValidRec "00" "01" 1.004, mkValidRec "01" "02" 1.004, mkValidRec "02" "03" 1]

/-- Fixture: prices 3, 1, 2 on consecutive hours. -/
def rankData : List Rec :=
  [mkValidRec "00" "01" 3, mkValidRec "01" "02" 1, mkValidRec "02" "03" 2]

/-- Fixture: a single fully valid record. -/
def fullRec : Rec := mkValidRec "00" "01" 1

/-- Fixture: a record that is excluded only because its price is None. -/
def noPriceRec : Rec :=
  { deliveryStart := some "00", deliveryEnd := some "01", deliveryDayCET := some "d",
    hourStartCET := some "hs", hourEndCET := some "he", period := some 1, price := none }

/-- Fixture: price, deliveryStart and deliveryEnd present but
deliveryDayCET missing. -/
def threeFieldRec : Rec :=
  { deliveryStart := some "00", deliveryEnd := some "01", deliveryDayCET := none,
    hourStartCET := some "hs", hourEndCET := some "he", period := some 1, price := some 1 }

/-- Fixture: a record carrying only a deliveryStart. -/
def dateOnlyRec : Rec :=
  { deliveryStart := some "x", deliveryEnd := none, deliveryDayCET := none,
    hourStartCET := none, hourEndCET := none, period := none, price := none }

/-- Fixture: a parse-to-local-date function mapping the string x to day 1. -/
def demoParseDate (s : String) : Option Nat := if s = "x" then some 1 else none

/-! Helper lemmas. -/

theorem foldl_min_mem (l : List ℚ) : ∀ a : ℚ, l.foldl min a ∈ a :: l := by
  induction l with
  | nil => intro a; simp
  | cons b l ih =>
    intro a
    have h := ih (min a b)
    rw [List.foldl_cons]
    rcases List.mem_cons.mp h with h1 | h1
    · rcases min_choice a b with hm | hm
      · rw [h1, hm]; exact List.mem_cons_self _ _
      · rw [h1, hm]; exact List.mem_cons_of_mem _ (List.mem_cons_self _ _)
    · exact List.mem_cons_of_mem _ (List.mem_cons_of_mem _ h1)

theorem foldl_min_le (l : List ℚ) : ∀ a : ℚ, ∀ x ∈ a :: l, l.foldl min a ≤ x := by
  induction l with
  | nil =>
    intro a x hx
    rw [List.mem_singleton] at hx
    subst hx; simp
  | cons b l ih =>
    intro a x hx
    rw [List.foldl_cons]
    have hself : List.foldl min (min a b) l ≤ min a b :=
      ih (min a b) (min a b) (List.mem_cons_self _ _)
    rcases List.mem_cons.mp hx with rfl | hx1
    · exact le_trans hself (min_le_left _ _)
    · rcases List.mem_cons.mp hx1 with rfl | hx2
      · exact le_trans hself (min_le_right _ _)
      · exact ih (min a b) x (List.mem_cons_of_mem _ hx2)

theorem foldl_max_mem (l : List ℚ) : ∀ a : ℚ, l.foldl max a ∈ a :: l := by
  induction l with
  | nil => intro a; simp
  | cons b l ih =>
    intro a
    have h := ih (max a b)
    rw [List.foldl_cons]
    rcases List.mem_cons.mp h with h1 | h1
    · rcases max_choice a b with hm | hm
      · rw [h1, hm]; exact List.mem_cons_self _ _
      · rw [h1, hm]; exact List.mem_cons_of_mem _ (List.mem_cons_self _ _)
    · exact List.mem_cons_of_mem _ (List.mem_cons_of_mem _ h1)

theorem foldl_le_max (l : List ℚ) : ∀ a : ℚ, ∀ x ∈ a :: l, x ≤ l.foldl max a := by
  induction l with
  | nil =>
    intro a x hx
    rw [List.mem_singleton] at hx
    subst hx; simp
  | cons b l ih =>
    intro a x hx
    rw [List.foldl_cons]
    have hself : max a b ≤ List.foldl max (max a b) l :=
      ih (max a b) (max a b) (List.mem_cons_self _ _)
    rcases List.mem_cons.mp hx with rfl | hx1
    · exact le_trans (le_max_left _ _) hself
    · rcases List.mem_cons.mp hx1 with rfl | hx2
      · exact le_trans (le_max_right _ _) hself
      · exact ih (max a b) x (List.mem_cons_of_mem _ hx2)

theorem pyMin_mem {l : List ℚ} (h : l ≠ []) : pyMin l ∈ l := by
  cases l with
  | nil => exact absurd rfl h
  | cons a l => exact foldl_min_mem l a

theorem pyMin_le {l : List ℚ} (h : l ≠ []) : ∀ x ∈ l, pyMin l ≤ x := by
  cases l with
  | nil => exact absurd rfl h
  | cons a l => exact fun x hx => foldl_min_le l a x hx

theorem pyMax_mem {l : List ℚ} (h : l ≠ []) : pyMax l ∈ l := by
  cases l with
  | nil => exact absurd rfl h
  | cons a l => exact foldl_max_mem l a

theorem le_pyMax {l : List ℚ} (h : l ≠ []) : ∀ x ∈ l, x ≤ pyMax l := by
  cases l with
  | nil => exact absurd rfl h
  | cons a l => exact fun x hx => foldl_le_max l a x hx

/-! Claim C6: the statistics calculator. -/

/-- Claim C6: for the empty series and for series whose records all lack a
price, calculate_price_statistics returns count 0 with min_price, max_price,
avg_price, min_record and max_record all None and never raises (it is a
total function); otherwise it returns the numeric minimum and maximum, the
arithmetic mean rounded to two decimals, and the first record (in input
iteration order) achieving the minimum and the first achieving the maximum.
Stated as: the calculator agrees everywhere with the reference definition
statsReference written from the words of the specification, and when some
record has a price the extremal-record fields are in fact populated (so the
internal next(...) calls cannot raise StopIteration). -/
theorem calculate_price_statistics_nil (data : List Rec)
    (hv : data.filter hasPrice = []) :
    calculate_price_statistics data = emptyStats := by
  unfold calculate_price_statistics
  by_cases hd : data = []
  · rw [if_pos hd]
  · rw [if_neg hd]
    simp [hv]

theorem calculate_price_statistics_cons (data : List Rec) (a : Rec) (l : List Rec)
    (hv : data.filter hasPrice = a :: l) :
    calculate_price_statistics data =
      { min_price := some (pyMin ((a :: l).map recPrice))
        max_price := some (pyMax ((a :: l).map recPrice))
        avg_price := some (round2 (((a :: l).map recPrice).sum / (((a :: l).map recPrice).length : ℚ)))
        count := (a :: l).length
        min_record := (a :: l).find? (fun r => r.price = some (pyMin ((a :: l).map recPrice)))
        max_record := (a :: l).find? (fun r => r.price = some (pyMax ((a :: l).map recPrice))) } := by
  have hd : data ≠ [] := by
    intro h; subst h; simp at hv
  unfold calculate_price_statistics
  rw [if_neg hd]
  simp only [hv]
  rw [if_neg (List.cons_ne_nil a l)]

theorem claim_C6 (data : List Rec) :
    calculate_price_statistics data = statsReference data ∧
    (data.filter hasPrice ≠ [] →
      (calculate_price_statistics data).min_record.isSome ∧
      (calculate_price_statistics data).max_record.isSome) := by
  constructor
  · cases hv : data.filter hasPrice with
    | nil =>
      rw [calculate_price_statistics_nil data hv]
      unfold statsReference
      simp only [hv]
      rfl
    | cons a l =>
      rw [calculate_price_statistics_cons data a l hv]
      unfold statsReference
      simp only [hv, List.map_cons, List.min?_cons', List.max?_cons']
      rfl
  · intro hne
    cases hv : data.filter hasPrice with
    | nil => exact absurd hv hne
    | cons a l =>
      rw [calculate_price_statistics_cons data a l hv]
      constructor
      · have hmem : pyMin ((a :: l).map recPrice) ∈ (a :: l).map recPrice :=
          pyMin_mem (by simp)
        rw [List.mem_map] at hmem
        obtain ⟨r, hr, hrp⟩ := hmem
        have hrs : r.price.isSome := by
          have hmf : r ∈ data.filter hasPrice := hv ▸ hr
          exact (List.mem_filter.mp hmf).2
        simp only [List.find?_isSome]
        refine ⟨r, hr, ?_⟩
        obtain ⟨p, hp⟩ := Option.isSome_iff_exists.mp hrs
        simp only [recPrice, hp, Option.getD_some] at hrp
        simp [hp, hrp]
      · have hmem : pyMax ((a :: l).map recPrice) ∈ (a :: l).map recPrice :=
          pyMax_mem (by simp)
        rw [List.mem_map] at hmem
        obtain ⟨r, hr, hrp⟩ := hmem
        have hrs : r.price.isSome := by
          have hmf : r ∈ data.filter hasPrice := hv ▸ hr
          exact (List.mem_filter.mp hmf).2
        simp only [List.find?_isSome]
        refine ⟨r, hr, ?_⟩
        obtain ⟨p, hp⟩ := Option.isSome_iff_exists.mp hrs
        simp only [recPrice, hp, Option.getD_some] at hrp
        simp [hp, hrp]

/-! Claim C2: the window-membership detector. -/

/-- Claim C2: the recompute of the today-window detectors sets state ACTIVE
(true) iff the window result is present with found True, both bounds are
present, non-empty and parseable, and start_local <= now < end_local in
local time (half-open: ACTIVE at now = start_local, INACTIVE at now =
end_local); on found False, a missing bound, or a parse failure the state
is INACTIVE (false).  update_detector_state is a total function, so the
recompute propagates no exception to its caller. -/
theorem claim_C2 (parse : String → Option Int) (toLocal : Int → Int)
    (window : Option WindowTimes) (now : Int) :
    update_detector_state parse toLocal window now = true ↔
      ∃ w s e sd ed, window = some w ∧ w.found = true ∧
        w.start_time = some s ∧ w.end_time = some e ∧ s ≠ "" ∧ e ≠ "" ∧
        parse s = some sd ∧ parse e = some ed ∧
        toLocal sd ≤ now ∧ now < toLocal ed := by
  cases window with
  | none => simp [update_detector_state]
  | some w =>
    cases hf : w.found with
    | false => simp [update_detector_state, hf]
    | true =>
      cases hs : w.start_time with
      | none => simp [update_detector_state, hf, hs]
      | some s =>
        cases he : w.end_time with
        | none => simp [update_detector_state, hf, hs, he]
        | some e =>
          by_cases hse : s = ""
          · simp [update_detector_state, hf, hs, he, hse]
          · by_cases hee : e = ""
            · simp [update_detector_state, hf, hs, he, hse, hee]
            · cases hps : parse s with
              | none => simp [update_detector_state, hf, hs, he, hse, hee, hps]
              | some sd =>
                cases hpe : parse e with
                | none => simp [update_detector_state, hf, hs, he, hse, hee, hps, hpe]
                | some ed =>
                  simp [update_detector_state, hf, hs, he, hse, hee, hps, hpe]

/-! Claim C7: the day partitioner. -/

theorem mem_filter_data_by_date {Date : Type} [DecidableEq Date]
    (parseLocalDate : String → Option Date) (data : List Rec) (d : Date) (r : Rec) :
    r ∈ filter_data_by_date parseLocalDate data d ↔
      r ∈ data ∧ ∃ s, r.deliveryStart = some s ∧ s ≠ "" ∧ parseLocalDate s = some d := by
  unfold filter_data_by_date
  rw [List.mem_filter]
  refine and_congr_right fun _ => ?_
  cases hds : r.deliveryStart with
  | none => simp [hds]
  | some s =>
    by_cases hse : s = ""
    · simp [hds, hse]
    · cases hp : parseLocalDate s with
      | none => simp [hds, hse, hp]
      | some d' => simp [hds, hse, hp]

/-- Claim C7: for every parse-to-local-date function (i.e. every fixed time
zone), the sub-series of _filter_data_by_date for two distinct calendar
dates are disjoint; a record lands in the sub-series for target iff it
occurs in the input and its deliveryStart is present, non-empty, and parses
to that local date; the union over all dates is exactly the set of input
records whose deliveryStart passes the truthiness-and-parse gate; and every
sub-series is a sublist of the input, so the input relative order is
preserved. -/
theorem claim_C7 {Date : Type} [DecidableEq Date]
    (parseLocalDate : String → Option Date) (data : List Rec)
    (d1 d2 target : Date) (r : Rec) :
    (d1 ≠ d2 → ¬ (r ∈ filter_data_by_date parseLocalDate data d1 ∧
                  r ∈ filter_data_by_date parseLocalDate data d2)) ∧
    (r ∈ filter_data_by_date parseLocalDate data target ↔
      r ∈ data ∧ ∃ s, r.deliveryStart = some s ∧ s ≠ "" ∧ parseLocalDate s = some target) ∧
    ((∃ d, r ∈ filter_data_by_date parseLocalDate data d) ↔
      r ∈ data ∧ startParses parseLocalDate r) ∧
    (filter_data_by_date parseLocalDate data target).Sublist data := by
  refine ⟨?_, mem_filter_data_by_date parseLocalDate data target r, ?_, List.filter_sublist data⟩
  · intro hne ⟨h1, h2⟩
    rw [mem_filter_data_by_date] at h1 h2
    obtain ⟨-, s1, hs1, -, hp1⟩ := h1
    obtain ⟨-, s2, hs2, -, hp2⟩ := h2
    rw [hs1] at hs2
    injection hs2 with hss
    rw [← hss, hp1] at hp2
    injection hp2 with hdd
    exact hne hdd
  · constructor
    · intro ⟨d, hd⟩
      rw [mem_filter_data_by_date] at hd
      obtain ⟨hmem, s, hs, hse, hp⟩ := hd
      exact ⟨hmem, s, hs, hse, by rw [hp]; rfl⟩
    · intro ⟨hmem, s, hs, hse, hp⟩
      obtain ⟨d, hd⟩ := Option.isSome_iff_exists.mp hp
      exact ⟨d, (mem_filter_data_by_date parseLocalDate data d r).mpr
        ⟨hmem, s, hs, hse, hd⟩⟩

/-! Sliding-window loop lemmas. -/

theorem pySlice_window (l : List Rec) (W i : Nat) (h : i + W ≤ l.length) :
    pySlice l (i : Int) ((i : Int) + (W : Int)) = windowSlice l W i := by
  unfold pySlice pySliceBound windowSlice
  rw [if_neg (by omega : ¬ ((i : Int) + (W : Int) < 0)),
    if_neg (by omega : ¬ ((i : Int) < 0))]
  have h1 : ((i : Int) + (W : Int)).toNat = i + W := by omega
  have h2 : (i : Int).toNat = i := by omega
  rw [h1, h2, min_eq_left (by omega : i + W ≤ l.length),
    min_eq_left (by omega : i ≤ l.length), List.drop_take]
  congr 1
  omega

theorem windowSlice_length (l : List Rec) (W i : Nat) (h : i + W ≤ l.length) :
    (windowSlice l W i).length = W := by
  unfold windowSlice
  rw [List.length_take, List.length_drop]
  omega

theorem sliceAvg_eq (l : List Rec) (W i : Nat) (h : i + W ≤ l.length) :
    sliceAvg l (W : Int) i = winAvg l W i := by
  unfold sliceAvg winAvg
  rw [pySlice_window l W i h, List.length_map, windowSlice_length l W i h]

theorem windowStep_ok (lt : ℚ → ℚ → Prop) [DecidableRel lt] (sorted : List Rec)
    (W i : Nat) (hW : 1 ≤ W) (h : i + W ≤ sorted.length) (best : Option (ℚ × BestWindow)) :
    windowStep (fun a b => decide (lt a b)) sorted (W : Int) i best =
      .ok (match best with
           | none => some (winAvg sorted W i, bestAt sorted W i)
           | some (b, w) =>
             if lt (winAvg sorted W i) b then some (winAvg sorted W i, bestAt sorted W i)
             else some (b, w)) := by
  have hlen : ((pySlice sorted (i : Int) ((i : Int) + (W : Int))).map recPrice).length = W := by
    rw [List.length_map, pySlice_window sorted W i h, windowSlice_length sorted W i h]
  unfold windowStep
  rw [if_neg (by omega : ¬ ((pySlice sorted (i : Int) ((i : Int) + (W : Int))).map recPrice).length = 0)]
  cases best with
  | none =>
    rw [sliceAvg_eq sorted W i h, pySlice_window sorted W i h]
    rfl
  | some bw =>
    obtain ⟨b, w⟩ := bw
    rw [sliceAvg_eq sorted W i h, pySlice_window sorted W i h]
    by_cases hlt : lt (winAvg sorted W i) b
    · simp [hlt, bestAt]
    · simp [hlt]

theorem windowLoop_ok (lt : ℚ → ℚ → Prop) [DecidableRel lt] (sorted : List Rec)
    (W : Nat) (hW : 1 ≤ W) (idxs : List Nat) :
    (∀ i ∈ idxs, i + W ≤ sorted.length) → ∀ best,
      windowLoop (fun a b => decide (lt a b)) sorted (W : Int) idxs best =
        .ok (selectBest lt (winAvg sorted W) (bestAt sorted W) idxs best) := by
  induction idxs with
  | nil => intro _ best; rfl
  | cons i rest ih =>
    intro hmem best
    rw [windowLoop, windowStep_ok lt sorted W i hW (hmem i (List.mem_cons_self i rest)) best]
    exact ih (fun j hj => hmem j (List.mem_cons_of_mem i hj)) _

theorem multiLoop_ok (sorted : List Rec) (W : Nat) (hW : 1 ≤ W) (idxs : List Nat) :
    (∀ i ∈ idxs, i + W ≤ sorted.length) → ∀ acc,
      multiLoop sorted (W : Int) idxs acc = .ok (acc ++ idxs.map (candWin sorted W)) := by
  induction idxs with
  | nil => intro _ acc; simp [multiLoop]
  | cons i rest ih =>
    intro hmem acc
    have h := hmem i (List.mem_cons_self i rest)
    have hlen : ((pySlice sorted (i : Int) ((i : Int) + (W : Int))).map recPrice).length = W := by
      rw [List.length_map, pySlice_window sorted W i h, windowSlice_length sorted W i h]
    rw [multiLoop, if_neg (by omega :
      ¬ ((pySlice sorted (i : Int) ((i : Int) + (W : Int))).map recPrice).length = 0)]
    rw [ih (fun j hj => hmem j (List.mem_cons_of_mem i hj)) _]
    rw [sliceAvg_eq sorted W i h, pySlice_window sorted W i h]
    simp [candWin]

theorem selectBest_spec (lt : ℚ → ℚ → Prop) [DecidableRel lt]
    (hirr : ∀ a, ¬ lt a a)
    (htrans : ∀ a b c, lt a b → lt b c → lt a c)
    (hA : ∀ a b c, ¬ lt b a → lt b c → lt a c)
    (hB : ∀ a b c, lt a b → ¬ lt c b → lt a c)
    (f : Nat → ℚ) (g : Nat → BestWindow) :
    ∀ (idxs : List Nat) (j : Nat),
      List.Pairwise (· < ·) idxs → (∀ i ∈ idxs, j < i) →
      ∃ j', selectBest lt f g idxs (some (f j, g j)) = some (f j', g j') ∧
        (j' = j ∨ j' ∈ idxs) ∧
        ¬ lt (f j) (f j') ∧
        (∀ i ∈ idxs, ¬ lt (f i) (f j')) ∧
        (j < j' → lt (f j') (f j)) ∧
        (∀ i ∈ idxs, i < j' → lt (f j') (f i)) := by
  intro idxs
  induction idxs with
  | nil =>
    intro j _ _
    exact ⟨j, rfl, Or.inl rfl, hirr (f j), by simp, by omega, by simp⟩
  | cons i rest ih =>
    intro j hpw hj
    have hpw' : List.Pairwise (· < ·) rest := hpw.of_cons
    have hhead : ∀ k ∈ rest, i < k := fun k hk => List.rel_of_pairwise_cons hpw hk
    by_cases hlt : lt (f i) (f j)
    · obtain ⟨j'', hC1, hC2, hC3, hC4, hC5, hC6⟩ := ih i hpw' hhead
      refine ⟨j'', ?_, ?_, ?_, ?_, ?_, ?_⟩
      · rw [selectBest]
        simpa [hlt] using hC1
      · rcases hC2 with rfl | hmem
        · exact Or.inr (List.mem_cons_self _ _)
        · exact Or.inr (List.mem_cons_of_mem _ hmem)
      · intro hc
        exact hC3 (htrans _ _ _ hlt hc)
      · intro k hk
        rcases List.mem_cons.mp hk with rfl | hk'
        · exact hC3
        · exact hC4 k hk'
      · intro _
        exact hA _ _ _ hC3 hlt
      · intro k hk hkj
        rcases List.mem_cons.mp hk with rfl | hk'
        · exact hC5 hkj
        · exact hC6 k hk' hkj
    · obtain ⟨j'', hC1, hC2, hC3, hC4, hC5, hC6⟩ := ih j hpw' (fun k hk => hj k (List.mem_cons_of_mem _ hk))
      refine ⟨j'', ?_, ?_, hC3, ?_, hC5, ?_⟩
      · rw [selectBest]
        simpa [hlt] using hC1
      · rcases hC2 with rfl | hmem
        · exact Or.inl rfl
        · exact Or.inr (List.mem_cons_of_mem _ hmem)
      · intro k hk
        rcases List.mem_cons.mp hk with rfl | hk'
        · intro hc
          rcases hC2 with rfl | hmem
          · exact hlt hc
          · exact hlt (htrans _ _ _ hc (hC5 (hj j'' (List.mem_cons_of_mem _ hmem))))
        · exact hC4 k hk'
      · intro k hk hkj
        rcases List.mem_cons.mp hk with rfl | hk'
        · rcases hC2 with rfl | hmem
          · exact absurd (hj k (List.mem_cons_self _ _)) (by omega)
          · exact hB _ _ _ (hC5 (hj j'' (List.mem_cons_of_mem _ hmem))) hlt
        · exact hC6 k hk' hkj

theorem selectBest_range (lt : ℚ → ℚ → Prop) [DecidableRel lt]
    (hirr : ∀ a, ¬ lt a a)
    (htrans : ∀ a b c, lt a b → lt b c → lt a c)
    (hA : ∀ a b c, ¬ lt b a → lt b c → lt a c)
    (hB : ∀ a b c, lt a b → ¬ lt c b → lt a c)
    (f : Nat → ℚ) (g : Nat → BestWindow) (m : Nat) (hm : 1 ≤ m) :
    ∃ j', selectBest lt f g (List.range m) none = some (f j', g j') ∧ j' < m ∧
      (∀ i, i < m → ¬ lt (f i) (f j')) ∧
      (∀ i, i < m → i < j' → lt (f j') (f i)) := by
  obtain ⟨m', rfl⟩ : ∃ m'', m = m'' + 1 := ⟨m - 1, by omega⟩
  rw [List.range_succ_eq_map]
  have hpw : List.Pairwise (· < ·) ((List.range m').map Nat.succ) :=
    List.pairwise_map.mpr ((List.pairwise_lt_range m').imp (fun h => by omega))
  have hj0 : ∀ i ∈ (List.range m').map Nat.succ, 0 < i := by
    intro i hi
    rw [List.mem_map] at hi
    obtain ⟨x, -, rfl⟩ := hi
    omega
  obtain ⟨j', hC1, hC2, hC3, hC4, hC5, hC6⟩ :=
    selectBest_spec lt hirr htrans hA hB f g ((List.range m').map Nat.succ) 0 hpw hj0
  have hmem_of_pos : ∀ i, i < m' + 1 → 0 < i → i ∈ (List.range m').map Nat.succ := by
    intro i hi hip
    rw [List.mem_map]
    exact ⟨i - 1, by rw [List.mem_range]; omega, by omega⟩
  refine ⟨j', ?_, ?_, ?_, ?_⟩
  · rw [selectBest]
    exact hC1
  · rcases hC2 with rfl | hmem
    · omega
    · rw [List.mem_map] at hmem
      obtain ⟨x, hx, rfl⟩ := hmem
      rw [List.mem_range] at hx
      omega
  · intro i hi
    rcases Nat.eq_zero_or_pos i with rfl | hip
    · exact hC3
    · exact hC4 i (hmem_of_pos i hi hip)
  · intro i hi hij
    rcases Nat.eq_zero_or_pos i with rfl | hip
    · exact hC5 hij
    · exact hC6 i (hmem_of_pos i hi hip) hij

theorem sortedValid_length (data : List Rec) :
    (sortedValid data).length = (data.filter recordIsValid).length :=
  (List.perm_insertionSort _ _).length_eq

theorem windowLoop_lt_ok (sorted : List Rec) (W : Nat) (hW : 1 ≤ W) (idxs : List Nat)
    (hmem : ∀ i ∈ idxs, i + W ≤ sorted.length) (best : Option (ℚ × BestWindow)) :
    windowLoop (fun a b => decide (a < b)) sorted (W : Int) idxs best =
      .ok (selectBest (· < ·) (winAvg sorted W) (bestAt sorted W) idxs best) :=
  windowLoop_ok (· < ·) sorted W hW idxs hmem best

theorem windowLoop_gt_ok (sorted : List Rec) (W : Nat) (hW : 1 ≤ W) (idxs : List Nat)
    (hmem : ∀ i ∈ idxs, i + W ≤ sorted.length) (best : Option (ℚ × BestWindow)) :
    windowLoop (fun a b => decide (b < a)) sorted (W : Int) idxs best =
      .ok (selectBest (fun a b => b < a) (winAvg sorted W) (bestAt sorted W) idxs best) :=
  windowLoop_ok (fun a b => b < a) sorted W hW idxs hmem best

theorem find_cheapest_main (data : List Rec) (W : Nat) (hW : 1 ≤ W)
    (hcnt : W ≤ (data.filter recordIsValid).length) :
    ∃ ic, ic + W ≤ (sortedValid data).length ∧
      find_cheapest_time_window data (W : Int) =
        .ok (.found (W : Int) (bestAt (sortedValid data) W ic)) ∧
      (∀ j, j + W ≤ (sortedValid data).length →
        winAvg (sortedValid data) W ic ≤ winAvg (sortedValid data) W j) ∧
      (∀ j, j + W ≤ (sortedValid data).length → j < ic →
        winAvg (sortedValid data) W ic < winAvg (sortedValid data) W j) := by
  have hn : W ≤ (sortedValid data).length := by
    rw [sortedValid_length]; exact hcnt
  have hdl : W ≤ data.length := le_trans hcnt (List.length_filter_le _ _)
  have hg1 : ¬ (data = [] ∨ (data.length : Int) < (W : Int)) := by
    rintro (rfl | hlt)
    · simp at hdl; omega
    · omega
  have hg2 : ¬ (((data.filter recordIsValid).length : Int) < (W : Int)) := by omega
  unfold find_cheapest_time_window
  rw [if_neg hg1, if_neg hg2]
  rw [show sortByStart (data.filter recordIsValid) = sortedValid data from rfl]
  have hmn : ((((sortedValid data).length : Int)) - (W : Int) + 1).toNat =
      (sortedValid data).length - W + 1 := by omega
  rw [hmn]
  rw [windowLoop_lt_ok (sortedValid data) W hW (List.range ((sortedValid data).length - W + 1))
    (by intro i hi; rw [List.mem_range] at hi; omega) none]
  obtain ⟨j', hsel, hj', hopt, hfirst⟩ :=
    selectBest_range (· < ·) (fun a => lt_irrefl a) (fun a b c => lt_trans)
      (fun a b c h1 h2 => lt_of_le_of_lt (le_of_not_lt h1) h2)
      (fun a b c h1 h2 => lt_of_lt_of_le h1 (le_of_not_lt h2))
      (winAvg (sortedValid data) W) (bestAt (sortedValid data) W)
      ((sortedValid data).length - W + 1) (by omega)
  rw [hsel]
  refine ⟨j', by omega, rfl, ?_, ?_⟩
  · intro j hj
    exact le_of_not_lt (hopt j (by omega))
  · intro j hj hji
    exact hfirst j (by omega) hji

theorem find_expensive_main (data : List Rec) (W : Nat) (hW : 1 ≤ W)
    (hcnt : W ≤ (data.filter recordIsValid).length) :
    ∃ ie, ie + W ≤ (sortedValid data).length ∧
      find_most_expensive_time_window data (W : Int) =
        .ok (.found (W : Int) (bestAt (sortedValid data) W ie)) ∧
      (∀ j, j + W ≤ (sortedValid data).length →
        winAvg (sortedValid data) W j ≤ winAvg (sortedValid data) W ie) ∧
      (∀ j, j + W ≤ (sortedValid data).length → j < ie →
        winAvg (sortedValid data) W j < winAvg (sortedValid data) W ie) := by
  have hn : W ≤ (sortedValid data).length := by
    rw [sortedValid_length]; exact hcnt
  have hdl : W ≤ data.length := le_trans hcnt (List.length_filter_le _ _)
  have hg1 : ¬ (data = [] ∨ (data.length : Int) < (W : Int)) := by
    rintro (rfl | hlt)
    · simp at hdl; omega
    · omega
  have hg2 : ¬ (((data.filter recordIsValid).length : Int) < (W : Int)) := by omega
  unfold find_most_expensive_time_window
  rw [if_neg hg1, if_neg hg2]
  rw [show sortByStart (data.filter recordIsValid) = sortedValid data from rfl]
  have hmn : ((((sortedValid data).length : Int)) - (W : Int) + 1).toNat =
      (sortedValid data).length - W + 1 := by omega
  rw [hmn]
  rw [windowLoop_gt_ok (sortedValid data) W hW (List.range ((sortedValid data).length - W + 1))
    (by intro i hi; rw [List.mem_range] at hi; omega) none]
  obtain ⟨j', hsel, hj', hopt, hfirst⟩ :=
    selectBest_range (fun a b => b < a) (fun a => lt_irrefl a)
      (fun a b c h1 h2 => lt_trans h2 h1)
      (fun a b c h1 h2 => lt_of_lt_of_le h2 (le_of_not_lt h1))
      (fun a b c h1 h2 => lt_of_le_of_lt (le_of_not_lt h2) h1)
      (winAvg (sortedValid data) W) (bestAt (sortedValid data) W)
      ((sortedValid data).length - W + 1) (by omega)
  rw [hsel]
  refine ⟨j', by omega, rfl, ?_, ?_⟩
  · intro j hj
    exact le_of_not_lt (hopt j (by omega))
  · intro j hj hji
    exact hfirst j (by omega) hji

/-! Claim C1: optimality of the single-best window search. -/

/-- Claim C1: for every series and window length W >= 1 such that at least
W valid records remain after filtering, find_cheapest_time_window returns a
found result whose window is a run of W consecutive entries of the sorted
valid data with exact average <= the average of every such run, and
find_most_expensive_time_window one with average >= every such run; among
runs achieving the best average the one with the smallest starting offset
in the sorted sequence is returned. -/
theorem claim_C1 (data : List Rec) (W : Nat) (hW : 1 ≤ W)
    (hcnt : W ≤ (data.filter recordIsValid).length) :
    ∃ ic ie,
      ic + W ≤ (sortedValid data).length ∧ ie + W ≤ (sortedValid data).length ∧
      find_cheapest_time_window data (W : Int) =
        .ok (.found (W : Int) (bestAt (sortedValid data) W ic)) ∧
      find_most_expensive_time_window data (W : Int) =
        .ok (.found (W : Int) (bestAt (sortedValid data) W ie)) ∧
      (∀ j, j + W ≤ (sortedValid data).length →
        winAvg (sortedValid data) W ic ≤ winAvg (sortedValid data) W j) ∧
      (∀ j, j + W ≤ (sortedValid data).length →
        winAvg (sortedValid data) W j ≤ winAvg (sortedValid data) W ie) ∧
      (∀ j, j + W ≤ (sortedValid data).length →
        winAvg (sortedValid data) W j = winAvg (sortedValid data) W ic → ic ≤ j) ∧
      (∀ j, j + W ≤ (sortedValid data).length →
        winAvg (sortedValid data) W j = winAvg (sortedValid data) W ie → ie ≤ j) := by
  obtain ⟨ic, hic, hceq, hcle, hcfirst⟩ := find_cheapest_main data W hW hcnt
  obtain ⟨ie, hie, heeq, hele, hefirst⟩ := find_expensive_main data W hW hcnt
  refine ⟨ic, ie, hic, hie, hceq, heeq, hcle, hele, ?_, ?_⟩
  · intro j hj heq
    by_contra hcon
    exact absurd heq (ne_of_gt (hcfirst j hj (by omega)))
  · intro j hj heq
    by_contra hcon
    exact absurd heq (ne_of_lt (hefirst j hj (by omega)))

/-- Witness for claim C1 at the five-record scenario of the specification. -/
theorem claim_C1_witness :
    ∃ ic ie,
      ic + 2 ≤ (sortedValid scenarioData).length ∧ ie + 2 ≤ (sortedValid scenarioData).length ∧
      find_cheapest_time_window scenarioData (2 : Int) =
        .ok (.found (2 : Int) (bestAt (sortedValid scenarioData) 2 ic)) ∧
      find_most_expensive_time_window scenarioData (2 : Int) =
        .ok (.found (2 : Int) (bestAt (sortedValid scenarioData) 2 ie)) ∧
      (∀ j, j + 2 ≤ (sortedValid scenarioData).length →
        winAvg (sortedValid scenarioData) 2 ic ≤ winAvg (sortedValid scenarioData) 2 j) ∧
      (∀ j, j + 2 ≤ (sortedValid scenarioData).length →
        winAvg (sortedValid scenarioData) 2 j ≤ winAvg (sortedValid scenarioData) 2 ie) ∧
      (∀ j, j + 2 ≤ (sortedValid scenarioData).length →
        winAvg (sortedValid scenarioData) 2 j = winAvg (sortedValid scenarioData) 2 ic → ic ≤ j) ∧
      (∀ j, j + 2 ≤ (sortedValid scenarioData).length →
        winAvg (sortedValid scenarioData) 2 j = winAvg (sortedValid scenarioData) 2 ie → ie ≤ j) :=
  claim_C1 scenarioData 2 (by omega) (by decide)

/-! Claim C10: selection by exact averages, result fields rounded. -/

/-- Claim C10: the single-best searches select the winning window by
comparing exact unrounded averages while the avg_price and
total_cost_per_mwh entries of the result hold the round-to-2-decimals
values of the selected window; the selection between two distinct windows
is decided by the exact averages (strictly better exact average wins, the
earlier offset wins on an exact tie), independently of rounding. -/
theorem claim_C10 (data : List Rec) (W : Nat) (hW : 1 ≤ W)
    (hcnt : W ≤ (data.filter recordIsValid).length) :
    ∃ ic ie,
      find_cheapest_time_window data (W : Int) =
        .ok (.found (W : Int) (bestAt (sortedValid data) W ic)) ∧
      find_most_expensive_time_window data (W : Int) =
        .ok (.found (W : Int) (bestAt (sortedValid data) W ie)) ∧
      (bestAt (sortedValid data) W ic).avg_price = round2 (winAvg (sortedValid data) W ic) ∧
      (bestAt (sortedValid data) W ie).avg_price = round2 (winAvg (sortedValid data) W ie) ∧
      (bestAt (sortedValid data) W ic).total_cost_per_mwh =
        round2 ((windowSlice (sortedValid data) W ic).map recPrice).sum ∧
      (bestAt (sortedValid data) W ie).total_cost_per_mwh =
        round2 ((windowSlice (sortedValid data) W ie).map recPrice).sum ∧
      (∀ j, j + W ≤ (sortedValid data).length → j ≠ ic →
        winAvg (sortedValid data) W ic < winAvg (sortedValid data) W j ∨
          (winAvg (sortedValid data) W ic = winAvg (sortedValid data) W j ∧ ic < j)) ∧
      (∀ j, j + W ≤ (sortedValid data).length → j ≠ ie →
        winAvg (sortedValid data) W j < winAvg (sortedValid data) W ie ∨
          (winAvg (sortedValid data) W j = winAvg (sortedValid data) W ie ∧ ie < j)) := by
  obtain ⟨ic, hic, hceq, hcle, hcfirst⟩ := find_cheapest_main data W hW hcnt
  obtain ⟨ie, hie, heeq, hele, hefirst⟩ := find_expensive_main data W hW hcnt
  refine ⟨ic, ie, hceq, heeq, rfl, rfl, rfl, rfl, ?_, ?_⟩
  · intro j hj hne
    rcases lt_or_eq_of_le (hcle j hj) with hlt | heq
    · exact Or.inl hlt
    · refine Or.inr ⟨heq, ?_⟩
      by_contra hcon
      exact absurd heq.symm (ne_of_gt (hcfirst j hj (by omega)))
  · intro j hj hne
    rcases lt_or_eq_of_le (hele j hj) with hlt | heq
    · exact Or.inl hlt
    · refine Or.inr ⟨heq, ?_⟩
      by_contra hcon
      exact absurd heq (ne_of_lt (hefirst j hj (by omega)))

/-- Witness for claim C10 at the rounding-tie fixture: the two length-2
windows have equal rounded averages 1.0 but distinct exact averages, and
the search decides between them by the exact values. -/
theorem claim_C10_witness :
    (∃ ic ie,
      find_cheapest_time_window roundTieData (2 : Int) =
        .ok (.found (2 : Int) (bestAt (sortedValid roundTieData) 2 ic)) ∧
      find_most_expensive_time_window roundTieData (2 : Int) =
        .ok (.found (2 : Int) (bestAt (sortedValid roundTieData) 2 ie)) ∧
      (bestAt (sortedValid roundTieData) 2 ic).avg_price =
        round2 (winAvg (sortedValid roundTieData) 2 ic) ∧
      (bestAt (sortedValid roundTieData) 2 ie).avg_price =
        round2 (winAvg (sortedValid roundTieData) 2 ie) ∧
      (bestAt (sortedValid roundTieData) 2 ic).total_cost_per_mwh =
        round2 ((windowSlice (sortedValid roundTieData) 2 ic).map recPrice).sum ∧
      (bestAt (sortedValid roundTieData) 2 ie).total_cost_per_mwh =
        round2 ((windowSlice (sortedValid roundTieData) 2 ie).map recPrice).sum ∧
      (∀ j, j + 2 ≤ (sortedValid roundTieData).length → j ≠ ic →
        winAvg (sortedValid roundTieData) 2 ic < winAvg (sortedValid roundTieData) 2 j ∨
          (winAvg (sortedValid roundTieData) 2 ic = winAvg (sortedValid roundTieData) 2 j ∧ ic < j)) ∧
      (∀ j, j + 2 ≤ (sortedValid roundTieData).length → j ≠ ie →
        winAvg (sortedValid roundTieData) 2 j < winAvg (sortedValid roundTieData) 2 ie ∨
          (winAvg (sortedValid roundTieData) 2 j = winAvg (sortedValid roundTieData) 2 ie ∧ ie < j))) ∧
    round2 (winAvg (sortedValid roundTieData) 2 0) =
      round2 (winAvg (sortedValid roundTieData) 2 1) ∧
    winAvg (sortedValid roundTieData) 2 1 < winAvg (sortedValid roundTieData) 2 0 := by
  have e0 : winAvg (sortedValid roundTieData) 2 0 =
      ((1.004 : ℚ) + (1.004 + 0)) / ((2 : ℕ) : ℚ) := rfl
  have e1 : winAvg (sortedValid roundTieData) 2 1 =
      ((1.004 : ℚ) + (1 + 0)) / ((2 : ℕ) : ℚ) := rfl
  refine ⟨claim_C10 roundTieData 2 (by omega) (by decide), ?_, ?_⟩
  · rw [e0, e1]
    norm_num [round2, roundHalfEven]
  · rw [e0, e1]
    norm_num

/-! Claim C3: behaviour on insufficient data and window_hours < 1. -/

theorem find_cheapest_guard1 (data : List Rec) (W : Int)
    (h : data = [] ∨ (data.length : Int) < W) :
    find_cheapest_time_window data W =
      .ok (.notFound ("Not enough data for " ++ toString W ++ "-hour window")) := by
  unfold find_cheapest_time_window
  rw [if_pos h]

theorem find_cheapest_guard2 (data : List Rec) (W : Int)
    (hg : ¬ (data = [] ∨ (data.length : Int) < W))
    (h2 : ((data.filter recordIsValid).length : Int) < W) :
    find_cheapest_time_window data W =
      .ok (.notFound ("Not enough valid data for " ++ toString W ++ "-hour window")) := by
  unfold find_cheapest_time_window
  rw [if_neg hg, if_pos h2]

theorem find_expensive_guard1 (data : List Rec) (W : Int)
    (h : data = [] ∨ (data.length : Int) < W) :
    find_most_expensive_time_window data W =
      .ok (.notFound ("Not enough data for " ++ toString W ++ "-hour window")) := by
  unfold find_most_expensive_time_window
  rw [if_pos h]

theorem find_expensive_guard2 (data : List Rec) (W : Int)
    (hg : ¬ (data = [] ∨ (data.length : Int) < W))
    (h2 : ((data.filter recordIsValid).length : Int) < W) :
    find_most_expensive_time_window data W =
      .ok (.notFound ("Not enough valid data for " ++ toString W ++ "-hour window")) := by
  unfold find_most_expensive_time_window
  rw [if_neg hg, if_pos h2]

/-- Claim C3 counterexample: on a one-record series with window_hours = 0
(< 1) both searches raise ZeroDivisionError on their first loop iteration
instead of returning a found False insufficient-data result. -/
theorem claim_C3_counterexample :
    find_cheapest_time_window [fullRec] 0 = .error "ZeroDivisionError" ∧
    find_most_expensive_time_window [fullRec] 0 = .error "ZeroDivisionError" :=
  ⟨rfl, rfl⟩

/-- Claim C3 (amended): for window_hours >= 1, a series with fewer than
window_hours valid records after filtering makes both searches return
found False with an insufficient-data message and raise no exception; an
empty series returns found False for every window_hours.  (The original
claim also asserted this for window_hours < 1 on a non-empty series,
where the code instead raises ZeroDivisionError inside the loop.) -/
theorem claim_C3_amended (data : List Rec) (W : Int) :
    (data = [] →
      find_cheapest_time_window data W =
        .ok (.notFound ("Not enough data for " ++ toString W ++ "-hour window")) ∧
      find_most_expensive_time_window data W =
        .ok (.notFound ("Not enough data for " ++ toString W ++ "-hour window"))) ∧
    (1 ≤ W → ((data.filter recordIsValid).length : Int) < W →
      (∃ m, find_cheapest_time_window data W = .ok (.notFound m) ∧
        (m = "Not enough data for " ++ toString W ++ "-hour window" ∨
         m = "Not enough valid data for " ++ toString W ++ "-hour window")) ∧
      (∃ m, find_most_expensive_time_window data W = .ok (.notFound m) ∧
        (m = "Not enough data for " ++ toString W ++ "-hour window" ∨
         m = "Not enough valid data for " ++ toString W ++ "-hour window"))) := by
  constructor
  · intro hd
    exact ⟨find_cheapest_guard1 data W (Or.inl hd), find_expensive_guard1 data W (Or.inl hd)⟩
  · intro hW hv
    by_cases hg : data = [] ∨ (data.length : Int) < W
    · exact ⟨⟨_, find_cheapest_guard1 data W hg, Or.inl rfl⟩,
        ⟨_, find_expensive_guard1 data W hg, Or.inl rfl⟩⟩
    · exact ⟨⟨_, find_cheapest_guard2 data W hg hv, Or.inr rfl⟩,
        ⟨_, find_expensive_guard2 data W hg hv, Or.inr rfl⟩⟩

/-- Witness for claim C3 (amended): the empty series at window 1, and a
one-record series whose single record lacks a price at window 1. -/
theorem claim_C3_amended_witness :
    (find_cheapest_time_window [] 1 =
      .ok (.notFound ("Not enough data for " ++ toString (1 : Int) ++ "-hour window")) ∧
     find_most_expensive_time_window [] 1 =
      .ok (.notFound ("Not enough data for " ++ toString (1 : Int) ++ "-hour window"))) ∧
    ((∃ m, find_cheapest_time_window [noPriceRec] 1 = .ok (.notFound m) ∧
        (m = "Not enough data for " ++ toString (1 : Int) ++ "-hour window" ∨
         m = "Not enough valid data for " ++ toString (1 : Int) ++ "-hour window")) ∧
     (∃ m, find_most_expensive_time_window [noPriceRec] 1 = .ok (.notFound m) ∧
        (m = "Not enough data for " ++ toString (1 : Int) ++ "-hour window" ∨
         m = "Not enough valid data for " ++ toString (1 : Int) ++ "-hour window"))) :=
  ⟨(claim_C3_amended [] 1).1 rfl, (claim_C3_amended [noPriceRec] 1).2 (by omega) (by decide)⟩

/-! Claims C4, C5, C8: the top-K rankers and the validity filter. -/

theorem pySlice_take {α : Type} (l : List α) (k : Nat) :
    pySlice l 0 (k : Int) = l.take k := by
  unfold pySlice pySliceBound
  rw [if_neg (by omega : ¬ ((k : Int) < 0)), if_neg (by omega : ¬ ((0 : Int) < 0))]
  have h0 : (0 : Int).toNat = 0 := rfl
  have hk : (k : Int).toNat = k := by omega
  rw [h0, hk, Nat.min_comm 0 l.length, Nat.min_zero, List.drop_zero]
  rcases le_total k l.length with h | h
  · rw [min_eq_left h]
  · rw [min_eq_right h, List.take_length, List.take_of_length_le h]

theorem pySlice_zero {α : Type} (l : List α) : pySlice l 0 0 = [] := by
  unfold pySlice pySliceBound
  simp

theorem find_multiple_cheap_guard (data : List Rec) (W count : Int)
    (h : data = [] ∨ ((data.filter recordIsValid).length : Int) < W) :
    find_multiple_cheap_windows data W count = .ok [] := by
  unfold find_multiple_cheap_windows
  by_cases hg1 : data = [] ∨ (data.length : Int) < W
  · rw [if_pos hg1]
  · have hv : ((data.filter recordIsValid).length : Int) < W := by
      rcases h with rfl | hv
      · exact absurd (Or.inl rfl) hg1
      · exact hv
    rw [if_neg hg1, if_pos hv]

theorem find_multiple_expensive_guard (data : List Rec) (W count : Int)
    (h : data = [] ∨ ((data.filter recordIsValid).length : Int) < W) :
    find_multiple_expensive_windows data W count = .ok [] := by
  unfold find_multiple_expensive_windows
  by_cases hg1 : data = [] ∨ (data.length : Int) < W
  · rw [if_pos hg1]
  · have hv : ((data.filter recordIsValid).length : Int) < W := by
      rcases h with rfl | hv
      · exact absurd (Or.inl rfl) hg1
      · exact hv
    rw [if_neg hg1, if_pos hv]

theorem find_multiple_cheap_main (data : List Rec) (W : Nat) (hW : 1 ≤ W)
    (hcnt : W ≤ (data.filter recordIsValid).length) (count : Int) :
    find_multiple_cheap_windows data (W : Int) count =
      .ok (pySlice (List.insertionSort (fun a b => a.avg_price ≤ b.avg_price)
        ((List.range ((sortedValid data).length - W + 1)).map (candWin (sortedValid data) W)))
        0 count) := by
  have hn : W ≤ (sortedValid data).length := by
    rw [sortedValid_length]; exact hcnt
  have hdl : W ≤ data.length := le_trans hcnt (List.length_filter_le _ _)
  have hg1 : ¬ (data = [] ∨ (data.length : Int) < (W : Int)) := by
    rintro (rfl | hlt)
    · simp at hdl; omega
    · omega
  have hg2 : ¬ (((data.filter recordIsValid).length : Int) < (W : Int)) := by omega
  unfold find_multiple_cheap_windows
  rw [if_neg hg1, if_neg hg2]
  rw [show sortByStart (data.filter recordIsValid) = sortedValid data from rfl]
  have hmn : ((((sortedValid data).length : Int)) - (W : Int) + 1).toNat =
      (sortedValid data).length - W + 1 := by omega
  rw [hmn, multiLoop_ok (sortedValid data) W hW (List.range ((sortedValid data).length - W + 1))
    (by intro i hi; rw [List.mem_range] at hi; omega) [], List.nil_append]

theorem find_multiple_expensive_main (data : List Rec) (W : Nat) (hW : 1 ≤ W)
    (hcnt : W ≤ (data.filter recordIsValid).length) (count : Int) :
    find_multiple_expensive_windows data (W : Int) count =
      .ok (pySlice (List.insertionSort (fun a b => b.avg_price ≤ a.avg_price)
        ((List.range ((sortedValid data).length - W + 1)).map (candWin (sortedValid data) W)))
        0 count) := by
  have hn : W ≤ (sortedValid data).length := by
    rw [sortedValid_length]; exact hcnt
  have hdl : W ≤ data.length := le_trans hcnt (List.length_filter_le _ _)
  have hg1 : ¬ (data = [] ∨ (data.length : Int) < (W : Int)) := by
    rintro (rfl | hlt)
    · simp at hdl; omega
    · omega
  have hg2 : ¬ (((data.filter recordIsValid).length : Int) < (W : Int)) := by omega
  unfold find_multiple_expensive_windows
  rw [if_neg hg1, if_neg hg2]
  rw [show sortByStart (data.filter recordIsValid) = sortedValid data from rfl]
  have hmn : ((((sortedValid data).length : Int)) - (W : Int) + 1).toNat =
      (sortedValid data).length - W + 1 := by omega
  rw [hmn, multiLoop_ok (sortedValid data) W hW (List.range ((sortedValid data).length - W + 1))
    (by intro i hi; rw [List.mem_range] at hi; omega) [], List.nil_append]

/-- Claim C4 counterexample: with three valid records, window 1 and
k = -1 (<= 0), both rankers return two windows (Python windows[:-1]), not
the empty list. -/
theorem claim_C4_counterexample :
    find_multiple_cheap_windows rankData ((1 : Nat) : Int) (-1) ≠ .ok [] ∧
    find_multiple_expensive_windows rankData ((1 : Nat) : Int) (-1) ≠ .ok [] := by
  have hcands : ((List.range ((sortedValid rankData).length - 1 + 1)).map
      (candWin (sortedValid rankData) 1)).length = 3 := by
    rw [List.length_map, List.length_range]
    rfl
  constructor
  · intro h
    rw [find_multiple_cheap_main rankData 1 (by omega) (by decide) (-1)] at h
    have hl := congrArg List.length (Except.ok.inj h)
    rw [List.length_nil] at hl
    unfold pySlice pySliceBound at hl
    rw [List.length_drop, List.length_take,
      (List.perm_insertionSort _ _).length_eq, hcands] at hl
    simp at hl
  · intro h
    rw [find_multiple_expensive_main rankData 1 (by omega) (by decide) (-1)] at h
    have hl := congrArg List.length (Except.ok.inj h)
    rw [List.length_nil] at hl
    unfold pySlice pySliceBound at hl
    rw [List.length_drop, List.length_take,
      (List.perm_insertionSort _ _).length_eq, hcands] at hl
    simp at hl

/-- Claim C4 (amended): with k = 0 and window_hours >= 1 both top-K
rankers return the empty list, and for every k and window_hours they
return the empty list (not an error) when the series is empty or has
fewer than window_hours valid records.  (For k < 0 the code instead
returns the ranked list with its last |k| elements dropped, as in Python
slicing; the counterexample forces that case out of the claim.) -/
theorem claim_C4_amended (data : List Rec) (W k : Int) :
    (1 ≤ W → find_multiple_cheap_windows data W 0 = .ok [] ∧
      find_multiple_expensive_windows data W 0 = .ok []) ∧
    (data = [] → find_multiple_cheap_windows data W k = .ok [] ∧
      find_multiple_expensive_windows data W k = .ok []) ∧
    (((data.filter recordIsValid).length : Int) < W →
      find_multiple_cheap_windows data W k = .ok [] ∧
      find_multiple_expensive_windows data W k = .ok []) := by
  refine ⟨?_, ?_, ?_⟩
  · intro hW
    by_cases hv : ((data.filter recordIsValid).length : Int) < W
    · exact ⟨find_multiple_cheap_guard data W 0 (Or.inr hv),
        find_multiple_expensive_guard data W 0 (Or.inr hv)⟩
    · have hcnt : W.toNat ≤ (data.filter recordIsValid).length := by omega
      have hW1 : 1 ≤ W.toNat := by omega
      rw [show W = ((W.toNat : Nat) : Int) from by omega]
      rw [find_multiple_cheap_main data W.toNat hW1 hcnt 0,
        find_multiple_expensive_main data W.toNat hW1 hcnt 0,
        pySlice_zero, pySlice_zero]
      exact ⟨rfl, rfl⟩
  · intro hd
    exact ⟨find_multiple_cheap_guard data W k (Or.inl hd),
      find_multiple_expensive_guard data W k (Or.inl hd)⟩
  · intro hv
    exact ⟨find_multiple_cheap_guard data W k (Or.inr hv),
      find_multiple_expensive_guard data W k (Or.inr hv)⟩

/-- Witness for claim C4 (amended): k = 0 on three valid records; any k on
the empty series; any k on a series whose only record lacks a price. -/
theorem claim_C4_amended_witness :
    (find_multiple_cheap_windows rankData 1 0 = .ok [] ∧
     find_multiple_expensive_windows rankData 1 0 = .ok []) ∧
    (find_multiple_cheap_windows [] 1 7 = .ok [] ∧
     find_multiple_expensive_windows [] 1 7 = .ok []) ∧
    (find_multiple_cheap_windows [noPriceRec] 1 7 = .ok [] ∧
     find_multiple_expensive_windows [noPriceRec] 1 7 = .ok []) :=
  ⟨(claim_C4_amended rankData 1 0).1 (by omega),
   (claim_C4_amended [] 1 7).2.1 rfl,
   (claim_C4_amended [noPriceRec] 1 7).2.2 (by decide)⟩

/-- Claim C5 counterexample: a record with price, deliveryStart and
deliveryEnd all present but deliveryDayCET missing fails the validity
filter and is excluded from windowing: on a series of that one record,
find_cheapest_time_window with window 1 reports not enough valid data. -/
theorem claim_C5_counterexample :
    threeFieldRec.price.isSome = true ∧ threeFieldRec.deliveryStart.isSome = true ∧
    threeFieldRec.deliveryEnd.isSome = true ∧ recordIsValid threeFieldRec = false ∧
    find_cheapest_time_window [threeFieldRec] 1 =
      .ok (.notFound "Not enough valid data for 1-hour window") :=
  ⟨rfl, rfl, rfl, rfl, rfl⟩

/-- Claim C5 (amended): in the window-search operations a record is
excluded from windowing iff any of the six dict entries price,
deliveryStart, deliveryEnd, deliveryDayCET, HourStartCET, HourEndCET is
missing; a record with all six present is kept by the filter feeding the
sliding-window computation. -/
theorem claim_C5_amended (data : List Rec) (r : Rec) :
    r ∈ data.filter recordIsValid ↔
      r ∈ data ∧ r.price.isSome ∧ r.deliveryStart.isSome ∧ r.deliveryEnd.isSome ∧
        r.deliveryDayCET.isSome ∧ r.hourStartCET.isSome ∧ r.hourEndCET.isSome := by
  rw [List.mem_filter]
  unfold recordIsValid
  simp [Bool.and_eq_true, and_assoc]

/-- Claim C8: each top-K ranker at k returns exactly the first
min(k, number of valid windows) elements, in the same rank order, of what
it returns at k + 1: the k result is the k-prefix of the k + 1 result,
and when window_hours >= 1 the returned length is min(k, numWindows). -/
theorem claim_C8 (data : List Rec) (W : Int) (k : Nat) :
    find_multiple_cheap_windows data W (k : Int) =
      (find_multiple_cheap_windows data W ((k : Int) + 1)).map (fun l => l.take k) ∧
    find_multiple_expensive_windows data W (k : Int) =
      (find_multiple_expensive_windows data W ((k : Int) + 1)).map (fun l => l.take k) ∧
    (1 ≤ W → ∀ l, find_multiple_cheap_windows data W (k : Int) = .ok l →
      l.length = min k ((data.filter recordIsValid).length + 1 - W.toNat)) ∧
    (1 ≤ W → ∀ l, find_multiple_expensive_windows data W (k : Int) = .ok l →
      l.length = min k ((data.filter recordIsValid).length + 1 - W.toNat)) := by
  have hk1 : (k : Int) + 1 = ((k + 1 : Nat) : Int) := by omega
  refine ⟨?_, ?_, ?_, ?_⟩
  · unfold find_multiple_cheap_windows
    by_cases hg1 : data = [] ∨ (data.length : Int) < W
    · rw [if_pos hg1, if_pos hg1]
      dsimp only [Except.map]
      rw [List.take_nil]
    · rw [if_neg hg1, if_neg hg1]
      by_cases hg2 : ((data.filter recordIsValid).length : Int) < W
      · rw [if_pos hg2, if_pos hg2]
        dsimp only [Except.map]
        rw [List.take_nil]
      · rw [if_neg hg2, if_neg hg2]
        cases hml : multiLoop (sortByStart (data.filter recordIsValid)) W
            (List.range ((((sortByStart (data.filter recordIsValid)).length : Int) -
              W + 1).toNat)) [] with
        | error e => rfl
        | ok windows =>
          dsimp only [Except.map]
          rw [hk1, pySlice_take, pySlice_take, List.take_take,
            min_eq_left (by omega : k ≤ k + 1)]
  · unfold find_multiple_expensive_windows
    by_cases hg1 : data = [] ∨ (data.length : Int) < W
    · rw [if_pos hg1, if_pos hg1]
      dsimp only [Except.map]
      rw [List.take_nil]
    · rw [if_neg hg1, if_neg hg1]
      by_cases hg2 : ((data.filter recordIsValid).length : Int) < W
      · rw [if_pos hg2, if_pos hg2]
        dsimp only [Except.map]
        rw [List.take_nil]
      · rw [if_neg hg2, if_neg hg2]
        cases hml : multiLoop (sortByStart (data.filter recordIsValid)) W
            (List.range ((((sortByStart (data.filter recordIsValid)).length : Int) -
              W + 1).toNat)) [] with
        | error e => rfl
        | ok windows =>
          dsimp only [Except.map]
          rw [hk1, pySlice_take, pySlice_take, List.take_take,
            min_eq_left (by omega : k ≤ k + 1)]
  · intro hW l heq
    by_cases hv : ((data.filter recordIsValid).length : Int) < W
    · rw [find_multiple_cheap_guard data W (k : Int) (Or.inr hv)] at heq
      have hl : l = [] := (Except.ok.inj heq).symm
      subst hl
      rw [List.length_nil]
      omega
    · have hcnt : W.toNat ≤ (data.filter recordIsValid).length := by omega
      have hW1 : 1 ≤ W.toNat := by omega
      rw [show W = ((W.toNat : Nat) : Int) from by omega,
        find_multiple_cheap_main data W.toNat hW1 hcnt (k : Int)] at heq
      have hl := (Except.ok.inj heq).symm
      subst hl
      rw [pySlice_take, List.length_take, (List.perm_insertionSort _ _).length_eq,
        List.length_map, List.length_range, sortedValid_length]
      omega
  · intro hW l heq
    by_cases hv : ((data.filter recordIsValid).length : Int) < W
    · rw [find_multiple_expensive_guard data W (k : Int) (Or.inr hv)] at heq
      have hl : l = [] := (Except.ok.inj heq).symm
      subst hl
      rw [List.length_nil]
      omega
    · have hcnt : W.toNat ≤ (data.filter recordIsValid).length := by omega
      have hW1 : 1 ≤ W.toNat := by omega
      rw [show W = ((W.toNat : Nat) : Int) from by omega,
        find_multiple_expensive_main data W.toNat hW1 hcnt (k : Int)] at heq
      have hl := (Except.ok.inj heq).symm
      subst hl
      rw [pySlice_take, List.length_take, (List.perm_insertionSort _ _).length_eq,
        List.length_map, List.length_range, sortedValid_length]
      omega

/-- Witness for claim C8 on three valid records at k = 1. -/
theorem claim_C8_witness :
    find_multiple_cheap_windows rankData ((1 : Nat) : Int) ((1 : Nat) : Int) =
      (find_multiple_cheap_windows rankData ((1 : Nat) : Int) (((1 : Nat) : Int) + 1)).map
        (fun l => l.take 1) ∧
    (pySlice (List.insertionSort (fun a b => a.avg_price ≤ b.avg_price)
      ((List.range ((sortedValid rankData).length - 1 + 1)).map
        (candWin (sortedValid rankData) 1))) 0 ((1 : Nat) : Int)).length =
      min 1 ((rankData.filter recordIsValid).length + 1 - ((1 : Nat) : Int).toNat) :=
  ⟨(claim_C8 rankData ((1 : Nat) : Int) 1).1,
   (claim_C8 rankData ((1 : Nat) : Int) 1).2.2.1 (by omega) _
     (find_multiple_cheap_main rankData 1 (by omega) (by decide) ((1 : Nat) : Int))⟩

/-- Witness for claim C6 at the five-record scenario. -/
theorem claim_C6_witness :
    calculate_price_statistics scenarioData = statsReference scenarioData ∧
    ((calculate_price_statistics scenarioData).min_record.isSome ∧
     (calculate_price_statistics scenarioData).max_record.isSome) :=
  ⟨(claim_C6 scenarioData).1, (claim_C6 scenarioData).2 (by decide)⟩

/-- Witness for claim C7: a one-record series, a parse function sending its
deliveryStart to local date 1, and the distinct dates 1 and 2. -/
theorem claim_C7_witness :
    ¬ (dateOnlyRec ∈ filter_data_by_date demoParseDate [dateOnlyRec] 1 ∧
       dateOnlyRec ∈ filter_data_by_date demoParseDate [dateOnlyRec] 2) ∧
    (dateOnlyRec ∈ filter_data_by_date demoParseDate [dateOnlyRec] 1 ↔
      dateOnlyRec ∈ [dateOnlyRec] ∧ ∃ s, dateOnlyRec.deliveryStart = some s ∧ s ≠ "" ∧
        demoParseDate s = some 1) ∧
    ((∃ d, dateOnlyRec ∈ filter_data_by_date demoParseDate [dateOnlyRec] d) ↔
      dateOnlyRec ∈ [dateOnlyRec] ∧ startParses demoParseDate dateOnlyRec) ∧
    (filter_data_by_date demoParseDate [dateOnlyRec] 1).Sublist [dateOnlyRec] := by
  obtain ⟨h1, h2, h3, h4⟩ := claim_C7 demoParseDate [dateOnlyRec] 1 2 1 dateOnlyRec
  exact ⟨h1 (by omega), h2, h3, h4⟩

/-! Claim C9: the rankers order candidates by the rounded average, with
stable chronological tie-breaking. -/

theorem map_snd_orderedInsert {β : Type} (r : β → β → Prop) [DecidableRel r]
    (x : Nat × β) (l : List (Nat × β)) :
    List.map Prod.snd (List.orderedInsert (fun a b : Nat × β => r a.2 b.2) x l) =
      List.orderedInsert r x.2 (List.map Prod.snd l) := by
  induction l with
  | nil => rfl
  | cons y ys ih =>
    simp only [List.orderedInsert, List.map_cons]
    by_cases h : r x.2 y.2
    · rw [if_pos h, if_pos h]
      simp
    · rw [if_neg h, if_neg h, List.map_cons, ih]

theorem map_snd_insertionSort {β : Type} (r : β → β → Prop) [DecidableRel r]
    (l : List (Nat × β)) :
    List.map Prod.snd (List.insertionSort (fun a b : Nat × β => r a.2 b.2) l) =
      List.insertionSort r (List.map Prod.snd l) := by
  induction l with
  | nil => rfl
  | cons x xs ih =>
    rw [List.insertionSort, List.map_cons, List.insertionSort, map_snd_orderedInsert, ih]

theorem orderedInsert_pairwise_stable {β : Type} (key : β → ℚ) (r : β → β → Prop)
    [DecidableRel r] (hne : ∀ a b, ¬ r a b → key a ≠ key b)
    (x : Nat × β) (l : List (Nat × β))
    (hx : ∀ y ∈ l, x.1 < y.1)
    (hl : List.Pairwise (fun a b => key a.2 = key b.2 → a.1 < b.1) l) :
    List.Pairwise (fun a b => key a.2 = key b.2 → a.1 < b.1)
      (List.orderedInsert (fun a b => r a.2 b.2) x l) := by
  induction l with
  | nil => exact List.pairwise_singleton _ x
  | cons y ys ih =>
    rw [List.orderedInsert]
    by_cases h : r x.2 y.2
    · rw [if_pos h]
      exact List.Pairwise.cons (fun z hz _ => hx z hz) hl
    · rw [if_neg h]
      refine List.Pairwise.cons ?_ (ih (fun z hz => hx z (List.mem_cons_of_mem _ hz)) hl.of_cons)
      intro z hz heq
      rcases (List.mem_orderedInsert (fun a b : Nat × β => r a.2 b.2)).mp hz with rfl | hz'
      · exact absurd heq.symm (hne _ _ h)
      · exact List.rel_of_pairwise_cons hl hz' heq

theorem insertionSort_pairwise_stable {β : Type} (key : β → ℚ) (r : β → β → Prop)
    [DecidableRel r] (hne : ∀ a b, ¬ r a b → key a ≠ key b)
    (l : List (Nat × β)) (hl : List.Pairwise (fun a b => a.1 < b.1) l) :
    List.Pairwise (fun a b => key a.2 = key b.2 → a.1 < b.1)
      (List.insertionSort (fun a b => r a.2 b.2) l) := by
  induction l with
  | nil => exact List.Pairwise.nil
  | cons x xs ih =>
    rw [List.insertionSort]
    apply orderedInsert_pairwise_stable key r hne
    · intro y hy
      exact List.rel_of_pairwise_cons hl ((List.perm_insertionSort _ xs).subset hy)
    · exact ih hl.of_cons

/-- Claim C9: both top-K rankers sort the candidate windows by the
avg_price entry, which holds the average already rounded to two decimals
(conjunct one), not the exact average; the ranked list each ranker slices
its output from is the projection of an indexed ranking that is sorted by
that rounded key (ascending for the cheap ranker, descending for the
expensive one) and in which any two candidates with equal rounded keys
appear in chronological (offset) order, so rounding ties are broken by
time and never by the exact averages. -/
theorem claim_C9 (data : List Rec) (W : Nat) (hW : 1 ≤ W)
    (hcnt : W ≤ (data.filter recordIsValid).length) (k : Int) :
    (∀ i, (candWin (sortedValid data) W i).avg_price =
      round2 (winAvg (sortedValid data) W i)) ∧
    find_multiple_cheap_windows data (W : Int) k =
      .ok (pySlice (List.map Prod.snd (List.insertionSort
        (fun a b : Nat × MultiWindow => a.2.avg_price ≤ b.2.avg_price)
        ((List.range ((sortedValid data).length - W + 1)).map
          (fun i => (i, candWin (sortedValid data) W i))))) 0 k) ∧
    find_multiple_expensive_windows data (W : Int) k =
      .ok (pySlice (List.map Prod.snd (List.insertionSort
        (fun a b : Nat × MultiWindow => b.2.avg_price ≤ a.2.avg_price)
        ((List.range ((sortedValid data).length - W + 1)).map
          (fun i => (i, candWin (sortedValid data) W i))))) 0 k) ∧
    List.Sorted (fun a b : Nat × MultiWindow => a.2.avg_price ≤ b.2.avg_price)
      (List.insertionSort (fun a b : Nat × MultiWindow => a.2.avg_price ≤ b.2.avg_price)
        ((List.range ((sortedValid data).length - W + 1)).map
          (fun i => (i, candWin (sortedValid data) W i)))) ∧
    List.Sorted (fun a b : Nat × MultiWindow => b.2.avg_price ≤ a.2.avg_price)
      (List.insertionSort (fun a b : Nat × MultiWindow => b.2.avg_price ≤ a.2.avg_price)
        ((List.range ((sortedValid data).length - W + 1)).map
          (fun i => (i, candWin (sortedValid data) W i)))) ∧
    List.Pairwise (fun a b : Nat × MultiWindow => a.2.avg_price = b.2.avg_price → a.1 < b.1)
      (List.insertionSort (fun a b : Nat × MultiWindow => a.2.avg_price ≤ b.2.avg_price)
        ((List.range ((sortedValid data).length - W + 1)).map
          (fun i => (i, candWin (sortedValid data) W i)))) ∧
    List.Pairwise (fun a b : Nat × MultiWindow => a.2.avg_price = b.2.avg_price → a.1 < b.1)
      (List.insertionSort (fun a b : Nat × MultiWindow => b.2.avg_price ≤ a.2.avg_price)
        ((List.range ((sortedValid data).length - W + 1)).map
          (fun i => (i, candWin (sortedValid data) W i)))) := by
  have hidx : List.Pairwise (fun a b : Nat × MultiWindow => a.1 < b.1)
      ((List.range ((sortedValid data).length - W + 1)).map
        (fun i => (i, candWin (sortedValid data) W i))) :=
    List.pairwise_map.mpr ((List.pairwise_lt_range _).imp (fun h => h))
  have hsnd : List.map Prod.snd
      ((List.range ((sortedValid data).length - W + 1)).map
        (fun i => (i, candWin (sortedValid data) W i))) =
      (List.range ((sortedValid data).length - W + 1)).map (candWin (sortedValid data) W) := by
    rw [List.map_map]
    rfl
  refine ⟨fun i => rfl, ?_, ?_, ?_, ?_, ?_, ?_⟩
  · rw [find_multiple_cheap_main data W hW hcnt k,
      map_snd_insertionSort (fun a b : MultiWindow => a.avg_price ≤ b.avg_price), hsnd]
  · rw [find_multiple_expensive_main data W hW hcnt k,
      map_snd_insertionSort (fun a b : MultiWindow => b.avg_price ≤ a.avg_price), hsnd]
  · haveI : IsTotal (Nat × MultiWindow)
        (fun a b : Nat × MultiWindow => a.2.avg_price ≤ b.2.avg_price) :=
      ⟨fun a b => le_total _ _⟩
    haveI : IsTrans (Nat × MultiWindow)
        (fun a b : Nat × MultiWindow => a.2.avg_price ≤ b.2.avg_price) :=
      ⟨fun a b c hab hbc => le_trans hab hbc⟩
    exact List.sorted_insertionSort _ _
  · haveI : IsTotal (Nat × MultiWindow)
        (fun a b : Nat × MultiWindow => b.2.avg_price ≤ a.2.avg_price) :=
      ⟨fun a b => le_total _ _⟩
    haveI : IsTrans (Nat × MultiWindow)
        (fun a b : Nat × MultiWindow => b.2.avg_price ≤ a.2.avg_price) :=
      ⟨fun a b c hab hbc => le_trans hbc hab⟩
    exact List.sorted_insertionSort _ _
  · exact insertionSort_pairwise_stable MultiWindow.avg_price
      (fun a b : MultiWindow => a.avg_price ≤ b.avg_price)
      (fun a b h he => h (le_of_eq he)) _ hidx
  · exact insertionSort_pairwise_stable MultiWindow.avg_price
      (fun a b : MultiWindow => b.avg_price ≤ a.avg_price)
      (fun a b h he => h (le_of_eq he.symm)) _ hidx

/-- Witness for claim C9 at the rounding-tie fixture: the first length-2
window has the strictly worse exact average (1.004 against 1.002) but the
same rounded average 1.0, and the cheap ranker at k = 1 returns it, placing
it ahead of the exactly better later window. -/
theorem claim_C9_witness :
    find_multiple_cheap_windows roundTieData ((2 : Nat) : Int) 1 =
      .ok [candWin (sortedValid roundTieData) 2 0] ∧
    winAvg (sortedValid roundTieData) 2 1 < winAvg (sortedValid roundTieData) 2 0 ∧
    round2 (winAvg (sortedValid roundTieData) 2 0) =
      round2 (winAvg (sortedValid roundTieData) 2 1) := by
  obtain ⟨h1, h2, -, -, -, -, -⟩ := claim_C9 roundTieData 2 (by omega) (by decide) 1
  have e0 : winAvg (sortedValid roundTieData) 2 0 =
      ((1.004 : ℚ) + (1.004 + 0)) / ((2 : Nat) : ℚ) := rfl
  have e1 : winAvg (sortedValid roundTieData) 2 1 =
      ((1.004 : ℚ) + (1 + 0)) / ((2 : Nat) : ℚ) := rfl
  have hround : round2 (winAvg (sortedValid roundTieData) 2 0) =
      round2 (winAvg (sortedValid roundTieData) 2 1) := by
    rw [e0, e1]
    norm_num [round2, roundHalfEven]
  have hkey : (candWin (sortedValid roundTieData) 2 0).avg_price =
      (candWin (sortedValid roundTieData) 2 1).avg_price := by
    rw [h1 0, h1 1, hround]
  refine ⟨?_, ?_, hround⟩
  · rw [show List.range ((sortedValid roundTieData).length - 2 + 1) = [0, 1] from rfl] at h2
    rw [show List.map (fun i => (i, candWin (sortedValid roundTieData) 2 i)) [0, 1] =
      [(0, candWin (sortedValid roundTieData) 2 0),
       (1, candWin (sortedValid roundTieData) 2 1)] from rfl] at h2
    have hsort : List.insertionSort
        (fun a b : Nat × MultiWindow => a.2.avg_price ≤ b.2.avg_price)
        [(0, candWin (sortedValid roundTieData) 2 0),
         (1, candWin (sortedValid roundTieData) 2 1)] =
        [(0, candWin (sortedValid roundTieData) 2 0),
         (1, candWin (sortedValid roundTieData) 2 1)] := by
      rw [List.insertionSort, List.insertionSort, List.insertionSort, List.orderedInsert,
        List.orderedInsert, if_pos (le_of_eq hkey)]
    rw [hsort] at h2
    rw [h2]
    rfl
  · rw [e0, e1]
    norm_num

end Okte
